import Mathlib

/-!
Verification of the transform-domain watermark codec specification of the
digital_watermarking_project repository against its source.  The backend
watermarking module (block partitioner, payload codec, auto-detector,
capacity calculator, reliability classifier) is not present under the
repository snapshot's source tree (only the React frontend and the project
documentation are), so those components are modelled from the
specification's own wording; the frontend capacity check is embedded
directly from `frontend/src/components/EmbedTab.tsx`.
-/

namespace Watermark

/-! ## Block Partitioner (§4.2) -/

/-- Modelled from the spec: padded dimension of the Block Partitioner,
`padded_rows = ceil(rows/block_size)*block_size` (§3, Padded Subband).
The backend `pad_and_split` implementation is absent from `src/`. -/
def paddedDim (n b : Nat) : Nat := ((n + b - 1) / b) * b

/-- Modelled from the spec: index map realising symmetric reflection
padding at the trailing edge — indices inside `[0, n)` are untouched,
indices at or beyond `n` reflect back across the edge (§4.2). -/
def reflectIdx (n i : Nat) : Nat := if i < n then i else 2 * n - 1 - i

/-- Total entry lookup of a matrix, returning 0 outside the index range. -/
def entryAt {r c : Nat} (X : Matrix (Fin r) (Fin c) ℤ) (i j : Nat) : ℤ :=
  if h : i < r ∧ j < c then X ⟨i, h.1⟩ ⟨j, h.2⟩ else 0

/-- Modelled from the spec: entry `(i, j)` of the padded subband obtained
from `X` by symmetric reflection padding at the trailing edges (§3, §4.2). -/
def padEntry {r c : Nat} (X : Matrix (Fin r) (Fin c) ℤ) (i j : Nat) : ℤ :=
  entryAt X (reflectIdx r i) (reflectIdx c j)

/-- Number of block columns of the padded subband. -/
def blocksPerRow (c b : Nat) : Nat := paddedDim c b / b

/-- Modelled from the spec: `pad_and_split(subband, block_size)` pads the
subband to a multiple of `block_size` with symmetric reflection at the
trailing edges and splits it into `block_size × block_size` tiles in
row-major order (§4.2; backend implementation absent from `src/`).
Tiles are indexed by their row-major index. -/
def pad_and_split {r c : Nat} (X : Matrix (Fin r) (Fin c) ℤ) (b : Nat) :
    Nat → Matrix (Fin b) (Fin b) ℤ :=
  fun k => Matrix.of fun u v =>
    padEntry X (k / blocksPerRow c b * b + u.val) (k % blocksPerRow c b * b + v.val)

/-- Modelled from the spec: `merge_and_crop(blocks, block_size, original_dims)`
reassembles the row-major tiles into a plane and crops it back to the
original dimensions (§4.2; backend implementation absent from `src/`). -/
def merge_and_crop {b : Nat} (blocks : Nat → Matrix (Fin b) (Fin b) ℤ)
    (c r cc : Nat) : Matrix (Fin r) (Fin cc) ℤ :=
  Matrix.of fun i j =>
    if h : 0 < b then
      blocks (i.val / b * blocksPerRow c b + j.val / b)
        ⟨i.val % b, Nat.mod_lt _ h⟩ ⟨j.val % b, Nat.mod_lt _ h⟩
    else 0

/-! ## Reliability Classifier (§4.7) -/

/-- Reliability class of a block size. -/
inductive ReliabilityClass where
  | safe
  | warning
  | danger
deriving DecidableEq, Repr

/-- Modelled from the spec: the Reliability Classifier's static lookup —
`Safe = {4,6,8,9,13}`, `Warning = {10,12,15}`, every other block size is
`Danger` (§4.7; backend implementation absent from `src/`). -/
def reliabilityClass (b : Nat) : ReliabilityClass :=
  if b = 4 ∨ b = 6 ∨ b = 8 ∨ b = 9 ∨ b = 13 then ReliabilityClass.safe
  else if b = 10 ∨ b = 12 ∨ b = 15 then ReliabilityClass.warning
  else ReliabilityClass.danger

/-- Modelled from the spec: safety margin in bytes associated with a block
size's reliability class — 4 / 8 / 12 bytes for Safe / Warning / Danger
(§4.7; backend implementation absent from `src/`). -/
def reliability_margin_bytes (b : Nat) : Nat :=
  match reliabilityClass b with
  | ReliabilityClass.safe => 4
  | ReliabilityClass.warning => 8
  | ReliabilityClass.danger => 12

/-! ## Capacity Calculator (§4.6) -/

/-- Modelled from the spec: dimension of the one-level wavelet subband,
half the linear resolution of the channel, rounded up (§3, Subband;
backend implementation absent from `src/`). -/
def subbandDim (n : Nat) : Nat := (n + 1) / 2

/-- Number of `b × b` blocks of a `rows × cols` plane after padding each
dimension up to a multiple of `b`. -/
def numBlocks (rows cols b : Nat) : Nat :=
  (paddedDim rows b / b) * (paddedDim cols b / b)

/-- Modelled from the spec: `capacity_bits(width, height, block_size)` is
the number of blocks in the padded subband, one bit per block (§4.6;
backend implementation absent from `src/`). -/
def capacity_bits (width height b : Nat) : Nat :=
  numBlocks (subbandDim height) (subbandDim width) b

/-- Modelled from the spec: `capacity_bytes = capacity_bits / 8` (floor)
(§4.6). -/
def capacity_bytes (width height b : Nat) : Nat := capacity_bits width height b / 8

/-- Modelled from the spec: `message_capacity_bytes = capacity_bytes -
(1 + 4 + signature_byte_length + 4 + margin_bytes(block_size))` (§4.6). -/
def message_capacity_bytes (width height b sigLen : Nat) : ℤ :=
  (capacity_bytes width height b : ℤ) -
    (1 + 4 + (sigLen : ℤ) + 4 + (reliability_margin_bytes b : ℤ))

/-! ## Payload framing and the embed-side capacity check (§4.4) -/

/-- Modelled from the spec: total size in bytes of the framed payload —
8-bit header, 32-bit signature length, signature, message, 32-bit
terminator, and the margin padding of the block size's class (§4.4). -/
def payload_total_bytes (msgLen sigLen b : Nat) : Nat :=
  1 + 4 + sigLen + msgLen + 4 + reliability_margin_bytes b

/-- Total size in bits of the framed payload. -/
def payload_total_bits (msgLen sigLen b : Nat) : Nat :=
  payload_total_bytes msgLen sigLen b * 8

/-- Error raised by the embed path. -/
inductive EmbedError where
  | capacityExceeded
deriving DecidableEq, Repr

/-- Modelled from the spec: the embed path raises `CapacityExceededError`
before encoding if and only if the bit stream is longer than the number of
available blocks; nothing else can make it refuse (§4.4, §7; backend
implementation absent from `src/`). -/
def embed_check (msgLen sigLen b nb : Nat) : Except EmbedError Unit :=
  if payload_total_bits msgLen sigLen b ≤ nb then Except.ok ()
  else Except.error EmbedError.capacityExceeded

/-! ## Payload Codec decode path (§4.4) -/

/-- Numeric value of a bit sequence read MSB-first. -/
def numVal (bs : List Bool) : Nat :=
  bs.foldl (fun a bit => 2 * a + (if bit then 1 else 0)) 0

/-- Group a bit sequence MSB-first into bytes; an incomplete trailing
group of fewer than 8 bits is dropped. -/
def bitsToBytes : List Bool → List Nat
  | b0 :: b1 :: b2 :: b3 :: b4 :: b5 :: b6 :: b7 :: rest =>
      numVal [b0, b1, b2, b3, b4, b5, b6, b7] :: bitsToBytes rest
  | _ => []

/-- Modelled from the spec: scan a byte sequence for the first occurrence
of the 32-bit all-zero terminator pattern and return the message bytes
preceding it, or `none` if the bytes are exhausted first (§4.4; backend
implementation absent from `src/`). -/
def findMessage : List Nat → Option (List Nat)
  | [] => none
  | byte :: rest =>
      if (byte :: rest).take 4 = [0, 0, 0, 0] then some []
      else (findMessage rest).map (byte :: ·)

/-- Errors raised by the decode path. -/
inductive DecodeError where
  | blockSizeMismatch
  | terminatorNotFound
deriving DecidableEq, Repr

/-- The signature bytes a decode of `bits` recovers: the `L` bytes
following the 8-bit header and the 32-bit big-endian length field `L`. -/
def sigBytes (bits : List Bool) : List Nat :=
  bitsToBytes (((bits.drop 8).drop 32).take (numVal ((bits.drop 8).take 32) * 8))

/-- The byte sequence a decode of `bits` scans for the terminator: the
bytes after the header, the length field and the signature. -/
def bodyBytes (bits : List Bool) : List Nat :=
  bitsToBytes (((bits.drop 8).drop 32).drop (numVal ((bits.drop 8).take 32) * 8))

/-- Modelled from the spec: `decode(bits, declared_block_size)` — read the
8-bit header and compare it with the declared block size (else
`BlockSizeMismatchError`); read the 32-bit length `L`; read `L` bytes of
signature; then read bytes until the all-zero terminator is found
(`TerminatorNotFoundError` if the stream is exhausted first); trailing
margin bits are ignored (§4.4; backend implementation absent from `src/`). -/
def decode (bits : List Bool) (declared : Nat) :
    Except DecodeError (List Nat × List Nat) :=
  if numVal (bits.take 8) ≠ declared then Except.error DecodeError.blockSizeMismatch
  else
    match findMessage (bodyBytes bits) with
    | some msg => Except.ok (sigBytes bits, msg)
    | none => Except.error DecodeError.terminatorNotFound

/-- The 32-bit all-zero terminator pattern occurs in `bs` at byte offset
`k`. -/
def TerminatorAt (bs : List Nat) (k : Nat) : Prop :=
  (bs.drop k).take 4 = [0, 0, 0, 0]

instance (bs : List Nat) (k : Nat) : Decidable (TerminatorAt bs k) := by
  unfold TerminatorAt
  infer_instance

/-! ## Block-Size Auto-Detector (§4.5) -/

/-- Error raised by the auto-detector. -/
inductive DetectError where
  | detectionFailed
deriving DecidableEq, Repr

/-- Modelled from the spec: ascending scan of the auto-detector — try
`count` candidate sizes starting at `lo`, returning the first candidate
whose decoded header (given by the probe `header`) equals the candidate
(§4.5; backend implementation absent from `src/`). -/
def detectFrom (header : Nat → Nat) : Nat → Nat → Except DetectError Nat
  | _, 0 => Except.error DetectError.detectionFailed
  | lo, count + 1 =>
      if header lo = lo then Except.ok lo else detectFrom header (lo + 1) count

/-- Modelled from the spec: `detect(extractor, min=2, max=64)` scans the
63 candidate block sizes 2..64 in ascending order; `header n` is the
value decoded from the first 8 bits extracted at candidate size `n`
(§4.5; backend implementation absent from `src/`). -/
def detect (header : Nat → Nat) : Except DetectError Nat :=
  detectFrom header 2 63

/-- Probe used to witness the auto-detector: the decoded header equals
the candidate only at size 8. -/
def probeAt8 (n : Nat) : Nat := if n = 8 then 8 else 0

/-! ## Frontend capacity check (frontend/src/components/EmbedTab.tsx) -/

/-- The capacity record held in the frontend state, as returned by the
`/api/capacity` endpoint (interface `CapacityInfo`). -/
structure CapacityInfo where
  capacity_bits : Nat
  capacity_bytes : Nat
  width : Nat
  height : Nat
  block_size : Nat
deriving DecidableEq, Repr

/-- `const signatureOverhead = 260` in `EmbedTab.tsx`. -/
def signatureOverhead : Nat := 260

/-- `messageBytes`: the UTF-8 byte length of the message,
`new TextEncoder().encode(message).length` in `EmbedTab.tsx`. -/
def messageBytes (message : String) : Nat := message.utf8ByteSize

/-- `totalPayloadBits = (messageBytes + signatureOverhead) * 8` in
`EmbedTab.tsx`. -/
def totalPayloadBits (message : String) : Nat :=
  (messageBytes message + signatureOverhead) * 8

/-- `capacityOk = capacity && totalPayloadBits <= capacity.capacity_bits`
in `EmbedTab.tsx`: false when no capacity record is loaded. -/
def capacityOk (capacity : Option CapacityInfo) (message : String) : Bool :=
  match capacity with
  | none => false
  | some c => decide (totalPayloadBits message ≤ c.capacity_bits)

/-- The `disabled` condition of the embed button in `EmbedTab.tsx`:
`loading || !selectedImage || !message || !capacityOk`. -/
def embedDisabled (loading hasImage : Bool) (message : String)
    (capacity : Option CapacityInfo) : Bool :=
  loading || !hasImage || message.isEmpty || !(capacityOk capacity message)

/-! ## Concrete inputs used by witnesses -/

/-- Concrete 2×3 matrix used to witness the partitioner round trip. -/
def sampleMat : Matrix (Fin 2) (Fin 3) ℤ :=
  Matrix.of fun i j => (i.val : ℤ) * 10 + j.val

/-- Concrete bit stream used to witness the decoder: header 4, signature
length 1, one signature byte `0xAB`, one message byte 65, all-zero
terminator. -/
def c4bits : List Bool :=
  [false, false, false, false, false, true, false, false] ++
    (List.replicate 31 false ++ [true]) ++
    [true, false, true, false, true, false, true, true] ++
    [false, true, false, false, false, false, false, true] ++
    List.replicate 32 false

end Watermark

namespace Watermark

theorem paddedDim_div {c b : Nat} (hb : 0 < b) : paddedDim c b / b = (c + b - 1) / b := by
  unfold paddedDim
  exact Nat.mul_div_cancel _ hb

theorem blocksPerRow_eq {c b : Nat} (hb : 0 < b) : blocksPerRow c b = (c + b - 1) / b := by
  unfold blocksPerRow
  exact paddedDim_div hb

theorem div_lt_blocksPerRow {c b j : Nat} (hb : 0 < b) (hj : j < c) :
    j / b < blocksPerRow c b := by
  have h1 : blocksPerRow c b = (c - 1) / b + 1 := by
    rw [blocksPerRow_eq hb]
    have h0 : c + b - 1 = (c - 1) + b := by omega
    rw [h0, Nat.add_div_right _ hb]
  have h2 : j / b ≤ (c - 1) / b := Nat.div_le_div_right (by omega)
  rw [h1]
  exact Nat.lt_succ_of_le h2

theorem reflectIdx_of_lt {n i : Nat} (h : i < n) : reflectIdx n i = i := by
  unfold reflectIdx
  simp [h]

/-- C1: splitting a subband into `block_size`-square tiles after symmetric
reflection padding, then merging the tiles and cropping back to the original
dimensions, is the identity: `merge_and_crop(pad_and_split(X, b), b, dims(X)) = X`
for every matrix `X` and every `b ≥ 1`. -/
theorem partitioner_roundtrip {r c : Nat} (X : Matrix (Fin r) (Fin c) ℤ)
    (b : Nat) (hb : 1 ≤ b) :
    merge_and_crop (pad_and_split X b) c r c = X := by
  ext i j
  have hbpos : 0 < b := hb
  have hcb : 0 < blocksPerRow c b :=
    Nat.lt_of_le_of_lt (Nat.zero_le _) (div_lt_blocksPerRow hbpos j.isLt)
  simp only [merge_and_crop, pad_and_split, Matrix.of_apply, dif_pos hbpos]
  set cb := blocksPerRow c b with hcbdef
  have hjlt : j.val / b < cb := div_lt_blocksPerRow hbpos j.isLt
  have hkdiv : (i.val / b * cb + j.val / b) / cb = i.val / b := by
    rw [Nat.add_comm, Nat.add_mul_div_right _ _ hcb, Nat.div_eq_of_lt hjlt]
    omega
  have hkmod : (i.val / b * cb + j.val / b) % cb = j.val / b := by
    rw [Nat.add_comm, Nat.add_mul_mod_self_right]
    exact Nat.mod_eq_of_lt hjlt
  rw [hkdiv, hkmod]
  have hi : i.val / b * b + i.val % b = i.val := by
    rw [Nat.mul_comm]
    exact Nat.div_add_mod _ _
  have hj : j.val / b * b + j.val % b = j.val := by
    rw [Nat.mul_comm]
    exact Nat.div_add_mod _ _
  rw [hi, hj]
  unfold padEntry
  rw [reflectIdx_of_lt i.isLt, reflectIdx_of_lt j.isLt]
  unfold entryAt
  rw [dif_pos ⟨i.isLt, j.isLt⟩]

/-- Witness for C1: the round trip instantiated at a concrete 2×3 matrix
with block size 2. -/
theorem partitioner_roundtrip_witness :
    merge_and_crop (pad_and_split sampleMat 2) 3 2 3 = sampleMat :=
  partitioner_roundtrip sampleMat 2 (by decide)

/-- C2: the reliability margin is a pure total function of the block size
alone — 4 bytes on the Safe set `{4,6,8,9,13}`, 8 bytes on the Warning set
`{10,12,15}`, and 12 bytes for every other block size. -/
theorem margin_lookup (b : Nat) :
    ((b = 4 ∨ b = 6 ∨ b = 8 ∨ b = 9 ∨ b = 13) → reliability_margin_bytes b = 4)
    ∧ ((b = 10 ∨ b = 12 ∨ b = 15) → reliability_margin_bytes b = 8)
    ∧ (¬(b = 4 ∨ b = 6 ∨ b = 8 ∨ b = 9 ∨ b = 13) → ¬(b = 10 ∨ b = 12 ∨ b = 15) →
        reliability_margin_bytes b = 12) := by
  refine ⟨?_, ?_, ?_⟩
  · rintro (rfl | rfl | rfl | rfl | rfl) <;> decide
  · rintro (rfl | rfl | rfl) <;> decide
  · intro h1 h2
    unfold reliability_margin_bytes reliabilityClass
    rw [if_neg h1, if_neg h2]

/-- Witness for C2: the margin evaluated on one block size of each class. -/
theorem margin_lookup_witness :
    reliability_margin_bytes 4 = 4 ∧ reliability_margin_bytes 10 = 8 ∧
      reliability_margin_bytes 7 = 12 :=
  ⟨(margin_lookup 4).1 (Or.inl rfl), (margin_lookup 10).2.1 (Or.inl rfl),
    (margin_lookup 7).2.2 (by decide) (by decide)⟩

/-- C3: `capacity_bytes = floor(capacity_bits / 8)`,
`message_capacity_bytes = capacity_bytes - (1 + 4 + signature_byte_length +
4 + margin_bytes(block_size))`, the total overhead for a 256-byte
signature at a Safe block size is 269 bytes, and the overhead is not a
block-size-independent constant. -/
theorem capacity_overhead (width height b sigLen : Nat) :
    capacity_bytes width height b = capacity_bits width height b / 8
    ∧ message_capacity_bytes width height b sigLen =
        (capacity_bytes width height b : ℤ) -
          (1 + 4 + (sigLen : ℤ) + 4 + (reliability_margin_bytes b : ℤ))
    ∧ (reliabilityClass b = ReliabilityClass.safe →
        1 + 4 + 256 + 4 + reliability_margin_bytes b = 269)
    ∧ 1 + 4 + 256 + 4 + reliability_margin_bytes 8 ≠
        1 + 4 + 256 + 4 + reliability_margin_bytes 10 := by
  refine ⟨rfl, rfl, ?_, by decide⟩
  intro h
  unfold reliability_margin_bytes
  rw [h]
  rfl

/-- Witness for C3: at block size 8 (Safe) the overhead for a 256-byte
signature is exactly 269 bytes. -/
theorem capacity_overhead_witness :
    1 + 4 + 256 + 4 + reliability_margin_bytes 8 = 269 :=
  (capacity_overhead 1920 1080 8 256).2.2.1 (by decide)

theorem ceil_blocks_antitone {n b1 b2 : Nat} (h1 : 1 ≤ b1) (h12 : b1 ≤ b2) :
    paddedDim n b2 / b2 ≤ paddedDim n b1 / b1 := by
  have hb1 : 0 < b1 := h1
  have hb2 : 0 < b2 := Nat.lt_of_lt_of_le hb1 h12
  rw [paddedDim_div hb1, paddedDim_div hb2]
  rcases Nat.eq_zero_or_pos n with hn | hn
  · subst hn
    rw [Nat.div_eq_of_lt (by omega)]
    exact Nat.zero_le _
  · have e1 : n + b1 - 1 = (n - 1) + b1 := by omega
    have e2 : n + b2 - 1 = (n - 1) + b2 := by omega
    rw [e1, e2, Nat.add_div_right _ hb1, Nat.add_div_right _ hb2]
    exact Nat.succ_le_succ (Nat.div_le_div_left h12 hb1)

/-- C7: for fixed image dimensions, `capacity_bits` is non-increasing in
the block size. -/
theorem capacity_monotone (width height b1 b2 : Nat) (h1 : 1 ≤ b1)
    (h12 : b1 ≤ b2) :
    capacity_bits width height b2 ≤ capacity_bits width height b1 := by
  unfold capacity_bits numBlocks
  exact Nat.mul_le_mul (ceil_blocks_antitone h1 h12) (ceil_blocks_antitone h1 h12)

/-- Witness for C7: a 1920×1080 image holds no more bits at block size 16
than at block size 8. -/
theorem capacity_monotone_witness :
    capacity_bits 1920 1080 16 ≤ capacity_bits 1920 1080 8 :=
  capacity_monotone 1920 1080 8 16 (by decide) (by decide)

/-- Counterexample to C8 as stated: the components it lists — 5-byte
message, 256-byte signature, 1-byte header, 4-byte length field, 4-byte
terminator and the 4-byte Safe margin — do not total 269 bytes. -/
theorem concrete_scenario_counterexample : payload_total_bytes 5 256 8 ≠ 269 := by
  decide

/-- C8 (amended): a 960×544 padded subband at block size 8 yields
120·68 = 8160 blocks, hence 8160 capacity bits and 1020 capacity bytes;
the listed payload components total 274 bytes = 2192 bits, which is at
most 8160 bits, so the capacity check reports that the payload fits. -/
theorem concrete_scenario_amended :
    numBlocks 544 960 8 = 8160
    ∧ numBlocks 544 960 8 / 8 = 1020
    ∧ payload_total_bytes 5 256 8 = 274
    ∧ payload_total_bits 5 256 8 = 2192
    ∧ embed_check 5 256 8 (numBlocks 544 960 8) = Except.ok () := by
  refine ⟨by decide, by decide, by decide, by decide, rfl⟩

/-- C9: a Danger classification never causes the embed path to refuse —
the margin is simply the wider 12 bytes, the only possible embed error is
`CapacityExceededError` (raised exactly when the payload exceeds the
block count), embedding succeeds whenever the payload fits, and the check
depends on the block size only through its margin. -/
theorem danger_no_refusal (msgLen sigLen b nb : Nat)
    (hd : reliabilityClass b = ReliabilityClass.danger) :
    reliability_margin_bytes b = 12
    ∧ (∀ e, embed_check msgLen sigLen b nb = Except.error e →
        e = EmbedError.capacityExceeded ∧ nb < payload_total_bits msgLen sigLen b)
    ∧ (payload_total_bits msgLen sigLen b ≤ nb →
        embed_check msgLen sigLen b nb = Except.ok ())
    ∧ (∀ b', reliability_margin_bytes b' = reliability_margin_bytes b →
        embed_check msgLen sigLen b' nb = embed_check msgLen sigLen b nb) := by
  refine ⟨?_, ?_, ?_, ?_⟩
  · unfold reliability_margin_bytes
    rw [hd]
  · intro e he
    unfold embed_check at he
    by_cases h : payload_total_bits msgLen sigLen b ≤ nb
    · rw [if_pos h] at he
      exact absurd he (by simp)
    · cases e
      exact ⟨rfl, Nat.lt_of_not_le h⟩
  · intro h
    unfold embed_check
    rw [if_pos h]
  · intro b' hm
    unfold embed_check payload_total_bits payload_total_bytes
    rw [hm]

/-- Witness for C9: block size 7 is Danger, yet embedding an empty payload
into 1000 blocks succeeds. -/
theorem danger_no_refusal_witness : embed_check 0 0 7 1000 = Except.ok () :=
  (danger_no_refusal 0 0 7 1000 (by decide)).2.2.1 (by decide)

theorem detectFrom_ok_iff (header : Nat → Nat) (count : Nat) :
    ∀ lo n, detectFrom header lo count = Except.ok n ↔
      (lo ≤ n ∧ n < lo + count ∧ header n = n ∧
        ∀ m, m < n → lo ≤ m → header m ≠ m) := by
  induction count with
  | zero =>
    intro lo n
    unfold detectFrom
    constructor
    · intro h
      exact absurd h (by simp)
    · rintro ⟨h1, h2, -, -⟩
      omega
  | succ count ih =>
    intro lo n
    unfold detectFrom
    by_cases hlo : header lo = lo
    · rw [if_pos hlo]
      constructor
      · intro h
        have hn : lo = n := by
          simpa using h
        subst hn
        exact ⟨Nat.le_refl _, by omega, hlo, fun m hm1 hm2 => by omega⟩
      · rintro ⟨h1, h2, h3, h4⟩
        have hn : n = lo := by
          by_contra hne
          exact h4 lo (by omega) (Nat.le_refl _) hlo
        subst hn
        rfl
    · rw [if_neg hlo, ih (lo + 1) n]
      constructor
      · rintro ⟨h1, h2, h3, h4⟩
        refine ⟨by omega, by omega, h3, fun m hm1 hm2 => ?_⟩
        rcases Nat.eq_or_lt_of_le hm2 with he | hl
        · rw [← he]
          exact hlo
        · exact h4 m hm1 hl
      · rintro ⟨h1, h2, h3, h4⟩
        have hne : n ≠ lo := by
          intro he
          rw [he] at h3
          exact hlo h3
        exact ⟨by omega, by omega, h3, fun m hm1 hm2 => h4 m hm1 (by omega)⟩

theorem detectFrom_err_iff (header : Nat → Nat) (count : Nat) :
    ∀ lo, detectFrom header lo count = Except.error DetectError.detectionFailed ↔
      ∀ m, m < lo + count → lo ≤ m → header m ≠ m := by
  induction count with
  | zero =>
    intro lo
    unfold detectFrom
    simp only [true_iff]
    intro m hm1 hm2
    exact absurd hm1 (by omega)
  | succ count ih =>
    intro lo
    unfold detectFrom
    by_cases hlo : header lo = lo
    · rw [if_pos hlo]
      constructor
      · intro h
        exact absurd h (by simp)
      · intro h
        exact absurd hlo (h lo (by omega) (Nat.le_refl _))
    · rw [if_neg hlo, ih (lo + 1)]
      constructor
      · intro h m hm1 hm2
        rcases Nat.eq_or_lt_of_le hm2 with he | hl
        · rw [← he]
          exact hlo
        · exact h m (by omega) hl
      · intro h m hm1 hm2
        exact h m (by omega) (by omega)

/-- C5: the auto-detector scans candidate block sizes 2..64 in ascending
order, returns the lowest candidate whose decoded header equals the
candidate, and fails with `DetectionFailedError` exactly when no candidate
in the range matches. -/
theorem detect_spec (header : Nat → Nat) :
    (∀ n, detect header = Except.ok n ↔
      (2 ≤ n ∧ n ≤ 64 ∧ header n = n ∧ ∀ m, m < n → 2 ≤ m → header m ≠ m))
    ∧ (detect header = Except.error DetectError.detectionFailed ↔
        ∀ m, m ≤ 64 → 2 ≤ m → header m ≠ m) := by
  constructor
  · intro n
    unfold detect
    rw [detectFrom_ok_iff header 63 2 n]
    constructor
    · rintro ⟨h1, h2, h3, h4⟩
      exact ⟨h1, by omega, h3, h4⟩
    · rintro ⟨h1, h2, h3, h4⟩
      exact ⟨h1, by omega, h3, h4⟩
  · unfold detect
    rw [detectFrom_err_iff header 63 2]
    constructor
    · intro h m hm1 hm2
      exact h m (by omega) hm2
    · intro h m hm1 hm2
      exact h m (by omega) hm2

/-- Witness for C5: on a probe whose header matches only at size 8, the
detector returns 8. -/
theorem detect_spec_witness : detect probeAt8 = Except.ok 8 :=
  ((detect_spec probeAt8).1 8).mpr ⟨by decide, by decide, by decide, by decide⟩

theorem findMessage_none_iff (bs : List Nat) :
    findMessage bs = none ↔ ∀ k, ¬ TerminatorAt bs k := by
  induction bs with
  | nil =>
    simp only [findMessage, true_iff]
    intro k
    unfold TerminatorAt
    simp
  | cons byte rest ih =>
    unfold findMessage
    by_cases h : (byte :: rest).take 4 = [0, 0, 0, 0]
    · rw [if_pos h]
      simp only [reduceCtorEq, false_iff, not_forall, not_not]
      exact ⟨0, h⟩
    · rw [if_neg h]
      rw [Option.map_eq_none', ih]
      constructor
      · intro H k
        match k with
        | 0 => exact h
        | k + 1 => exact H k
      · intro H k
        exact H (k + 1)

theorem findMessage_some_iff (bs : List Nat) :
    ∀ msg, findMessage bs = some msg ↔
      ∃ k, TerminatorAt bs k ∧ (∀ j, j < k → ¬ TerminatorAt bs j) ∧
        msg = bs.take k := by
  induction bs with
  | nil =>
    intro msg
    simp only [findMessage, reduceCtorEq, false_iff, not_exists]
    intro k hk
    rcases hk with ⟨hterm, -, -⟩
    revert hterm
    unfold TerminatorAt
    simp
  | cons byte rest ih =>
    intro msg
    unfold findMessage
    by_cases h : (byte :: rest).take 4 = [0, 0, 0, 0]
    · rw [if_pos h]
      constructor
      · intro he
        have hmsg : msg = [] := by
          simpa using he.symm
        exact ⟨0, h, fun j hj => by omega, by simp [hmsg]⟩
      · rintro ⟨k, hk, hleast, hmsg⟩
        have hk0 : k = 0 := by
          by_contra hne
          exact hleast 0 (by omega) h
        subst hk0
        simp [hmsg]
    · rw [if_neg h]
      constructor
      · intro he
        rcases hfr : findMessage rest with - | m'
        · rw [hfr] at he
          exact absurd he (by simp)
        · rw [hfr] at he
          have hmsg : msg = byte :: m' := by
            simpa using he.symm
          rcases (ih m').mp hfr with ⟨k, hk, hleast, hm'⟩
          refine ⟨k + 1, hk, ?_, by simp [hmsg, hm']⟩
          intro j hj
          match j with
          | 0 => exact h
          | j + 1 => exact hleast j (by omega)
      · rintro ⟨k, hk, hleast, hmsg⟩
        match k with
        | 0 => exact absurd hk h
        | k + 1 =>
          have hfr : findMessage rest = some (List.take k rest) :=
            (ih (List.take k rest)).mpr
              ⟨k, hk, fun j hj => hleast (j + 1) (by omega), rfl⟩
          rw [hfr]
          simp [hmsg]

/-- C4: decode fails with `BlockSizeMismatchError` exactly when the 8-bit
header differs from the declared block size; with a matching header it
fails with `TerminatorNotFoundError` exactly when the all-zero 32-bit
terminator never occurs in the bytes following the signature, and
otherwise returns the signature and the message bytes preceding the first
terminator occurrence, ignoring everything after it. -/
theorem decode_spec (bits : List Bool) (declared : Nat) :
    (decode bits declared = Except.error DecodeError.blockSizeMismatch ↔
      numVal (bits.take 8) ≠ declared)
    ∧ (numVal (bits.take 8) = declared →
        ((decode bits declared = Except.error DecodeError.terminatorNotFound ↔
            ∀ k, ¬ TerminatorAt (bodyBytes bits) k)
          ∧ ∀ k, TerminatorAt (bodyBytes bits) k →
              (∀ j, j < k → ¬ TerminatorAt (bodyBytes bits) j) →
              decode bits declared =
                Except.ok (sigBytes bits, (bodyBytes bits).take k))) := by
  constructor
  · unfold decode
    by_cases h : numVal (bits.take 8) ≠ declared
    · rw [if_pos h]
      simp [h]
    · rw [if_neg h]
      rcases hfm : findMessage (bodyBytes bits) with - | m <;>
        simp [hfm, h]
  · intro h
    have hne : ¬ numVal (bits.take 8) ≠ declared := by
      simp [h]
    constructor
    · unfold decode
      rw [if_neg hne, ← findMessage_none_iff]
      rcases hfm : findMessage (bodyBytes bits) with - | m <;> simp [hfm]
    · intro k hk hleast
      unfold decode
      rw [if_neg hne]
      have hfm : findMessage (bodyBytes bits) = some ((bodyBytes bits).take k) :=
        (findMessage_some_iff (bodyBytes bits) _).mpr ⟨k, hk, hleast, rfl⟩
      rw [hfm]

/-- Witness for C4: decoding the concrete stream `c4bits` with declared
block size 4 returns its signature byte and the message byte before the
terminator. -/
theorem decode_spec_witness :
    decode c4bits 4 = Except.ok (sigBytes c4bits, (bodyBytes c4bits).take 1) :=
  ((decode_spec c4bits 4).2 (by decide)).2 1 (by decide) (by decide)

/-- C10: the frontend capacity check is
`(utf8_length(message) + 260) * 8 <= capacity_bits` with a fixed 260-byte
signature overhead independent of the block size, and the embed button is
disabled whenever the check fails or no capacity record is loaded. -/
theorem frontend_capacity_check (message : String)
    (capacity : Option CapacityInfo) (loading hasImage : Bool) :
    (capacityOk capacity message = true ↔
      ∃ c, capacity = some c ∧
        (message.utf8ByteSize + 260) * 8 ≤ c.capacity_bits)
    ∧ (∀ c1 c2 : CapacityInfo, c1.capacity_bits = c2.capacity_bits →
        capacityOk (some c1) message = capacityOk (some c2) message)
    ∧ (capacityOk capacity message = false →
        embedDisabled loading hasImage message capacity = true)
    ∧ (capacity = none →
        embedDisabled loading hasImage message capacity = true) := by
  refine ⟨?_, ?_, ?_, ?_⟩
  · cases capacity with
    | none => simp [capacityOk]
    | some c =>
      simp [capacityOk, totalPayloadBits, messageBytes, signatureOverhead]
  · intro c1 c2 h
    simp [capacityOk, totalPayloadBits, h]
  · intro h
    unfold embedDisabled
    rw [h]
    simp
  · rintro rfl
    simp [embedDisabled, capacityOk]

/-- Witness for C10: with no capacity record loaded, the embed button is
disabled. -/
theorem frontend_capacity_check_witness :
    embedDisabled false true "hello" none = true :=
  (frontend_capacity_check "hello" none false true).2.2.2 rfl

end Watermark
